import Mathlib

/-!
Verification development for the dalle2-app persistence and backup layer.

The TypeScript sources are shallowly embedded:
* binary image content (`Blob`) is a MIME-type string plus a byte list;
* the IndexedDB image store, the object-URL cache and the object-URL
  registry are modelled as one explicit state (`DBState`) threaded through
  every operation; `writeLog` is ghost instrumentation recording the keys
  passed to `saveImage`, in call order, and is never read by the code model;
* asynchronous functions become state-passing functions; a thrown
  exception becomes an `Except.error` (carrying the state reached so far
  where partial side effects matter);
* JavaScript numbers are modelled as `Int`: the persistence layer only
  copies them, it never computes with them.
-/

deriving instance DecidableEq for Except

namespace DalleApp

/-- A binary blob: MIME type (the `Blob` constructor's `type` option,
`""` when absent) plus raw byte content. -/
structure Blob where
  type : String
  data : List Nat
deriving DecidableEq

/-- Pointwise update of a function-backed finite map. -/
def upd (f : String → Option α) (k : String) (v : Option α) : String → Option α :=
  fun q => if q = k then v else f q

/-- The browser-side storage state: the IndexedDB `images` object store,
the module-level `objectUrlCache` (key ↦ object URL), the browser's live
object-URL registry (URL ↦ blob, populated by `URL.createObjectURL`),
a counter minting distinct object URLs, and the ghost write log. -/
structure DBState where
  store : String → Option Blob
  cache : String → Option String
  registry : String → Option Blob
  fresh : Nat
  writeLog : List String

/-- The empty browser state: nothing stored, nothing cached. -/
def emptyDB : DBState :=
  { store := fun _ => none, cache := fun _ => none, registry := fun _ => none,
    fresh := 0, writeLog := [] }

/-- `revokeCachedUrl` from src/lib/indexeddb.ts: if the key has a cached
object URL, revoke it (drop it from the registry) and drop the cache entry. -/
def revokeCachedUrl (key : String) (st : DBState) : DBState :=
  match st.cache key with
  | some url =>
      { st with registry := upd st.registry url none, cache := upd st.cache key none }
  | none => st

/-- `saveImage` from src/lib/indexeddb.ts: revoke any cached URL for the
key, then `put` the blob (overwriting any previous value). -/
def saveImage (key : String) (image : Blob) (st : DBState) : DBState :=
  let st1 := revokeCachedUrl key st
  { st1 with store := upd st1.store key (some image), writeLog := st1.writeLog ++ [key] }

/-- `deleteImage` from src/lib/indexeddb.ts: revoke any cached URL for the
key, then delete the store entry (a no-op when absent). -/
def deleteImage (key : String) (st : DBState) : DBState :=
  let st1 := revokeCachedUrl key st
  { st1 with store := upd st1.store key none }

/-- `deleteImage` with storage-failure injection: `fail` says for which
keys the IndexedDB delete transaction rejects.  The cache revocation is
synchronous and happens first; on failure the store is untouched and the
exception is reported as `Except.error` carrying the reached state. -/
def deleteImageF (fail : String → Bool) (key : String) (st : DBState) :
    Except DBState DBState :=
  let st1 := revokeCachedUrl key st
  if fail key then .error st1
  else .ok { st1 with store := upd st1.store key none }

/-- `getImageAsDataUrl` from src/lib/indexeddb.ts.  Despite the name it
returns an object URL: on a cache miss it reads the blob, mints a fresh
object URL via `URL.createObjectURL`, registers and caches it. -/
def getImageAsDataUrl (key : String) (st : DBState) : Option String × DBState :=
  match st.cache key with
  | some cached => (some cached, st)
  | none =>
    match st.store key with
    | none => (none, st)
    | some blob =>
      let url := "blob:" ++ toString st.fresh
      (some url,
        { st with registry := upd st.registry url (some blob),
                  cache := upd st.cache key (some url),
                  fresh := st.fresh + 1 })

/-! ### Base64 and data-URL decoding (the browser's `atob`) -/

/-- Value of one base64 alphabet character. -/
def b64Val (c : Char) : Option Nat :=
  if 'A' ≤ c ∧ c ≤ 'Z' then some (c.toNat - 65)
  else if 'a' ≤ c ∧ c ≤ 'z' then some (c.toNat - 97 + 26)
  else if '0' ≤ c ∧ c ≤ '9' then some (c.toNat - 48 + 52)
  else if c = '+' then some 62
  else if c = '/' then some 63
  else none

/-- Reassemble 6-bit groups into bytes; trailing bits of a final group of
two or three characters are discarded (forgiving base64). -/
def b64Bytes : List Nat → List Nat
  | a :: b :: c :: d :: rest =>
      (a * 4 + b / 16) :: ((b % 16) * 16 + c / 4) :: ((c % 4) * 64 + d) :: b64Bytes rest
  | [a, b] => [a * 4 + b / 16]
  | [a, b, c] => [a * 4 + b / 16, (b % 16) * 16 + c / 4]
  | _ => []

/-- Strip up to two trailing `=` padding characters. -/
def b64StripPad (cs : List Char) : List Char :=
  match cs.reverse with
  | '=' :: '=' :: rest => rest.reverse
  | '=' :: rest => rest.reverse
  | _ => cs

/-- The browser's `atob` (forgiving base64 decode): remove ASCII
whitespace, strip padding when the length is a multiple of four, reject a
remainder-one length or any non-alphabet character, decode the rest. -/
def atob (s : String) : Except String (List Nat) :=
  let cs := s.data.filter fun c =>
    ¬ (c = ' ' ∨ c = '\t' ∨ c = '\n' ∨ c = '\r' ∨ c = '\x0c')
  let cs := if cs.length % 4 = 0 then b64StripPad cs else cs
  if cs.length % 4 = 1 then .error "InvalidCharacterError"
  else
    match cs.mapM b64Val with
    | none => .error "InvalidCharacterError"
    | some vals => .ok (b64Bytes vals)

/-- Helper for `splitOnChar`, accumulating the current piece reversed. -/
def splitOnCharAux (sep : Char) : List Char → List Char → List String
  | [], acc => [⟨acc.reverse⟩]
  | c :: cs, acc =>
    if c = sep then ⟨acc.reverse⟩ :: splitOnCharAux sep cs []
    else splitOnCharAux sep cs (c :: acc)

/-- JavaScript's `String.prototype.split` with a one-character separator
(`"".split(sep)` is `[""]`, and empty pieces are kept). -/
def splitOnChar (sep : Char) (s : String) : List String :=
  splitOnCharAux sep s.data []

/-- Join pieces back with a separator. -/
def joinWith (sep : String) : List String → String
  | [] => ""
  | [x] => x
  | x :: xs => x ++ sep ++ joinWith sep xs

/-- The regex `/:(.*?);/` applied to the data-URL header: the text between
the first `:` and the first `;` after it, when both exist. -/
def extractMime (s : String) : Option String :=
  match splitOnChar ':' s with
  | _ :: rest@(_ :: _) =>
    match splitOnChar ';' (joinWith ":" rest) with
    | m :: _ :: _ => some m
    | _ => none
  | _ => none

/-- `dataURLtoBlob` from src/lib/openai.ts: split on `,`, read the MIME
type from the header, base64-decode the payload into bytes.  When the
string has no `,`, JavaScript's `arr[1]` is `undefined` and `atob`
coerces it to the string `"undefined"` (which fails to decode). -/
def dataURLtoBlob (dataURL : String) : Except String Blob :=
  let arr := splitOnChar ',' dataURL
  let mime := extractMime (arr.headD "")
  match atob ((arr[1]?).getD "undefined") with
  | .error e => .error e
  | .ok bytes => .ok { type := mime.getD "", data := bytes }

/-- `dataURLToBlob` from src/lib/url-types.ts (the branded-types module):
same statement sequence as `dataURLtoBlob` in the API module. -/
def dataURLToBlob (dataURL : String) : Except String Blob :=
  let arr := splitOnChar ',' dataURL
  let mime := extractMime (arr.headD "")
  match atob ((arr[1]?).getD "undefined") with
  | .error e => .error e
  | .ok bytes => .ok { type := mime.getD "", data := bytes }

/-! ### The data model (src/lib/types.ts) -/

/-- Nested `input_tokens_details` of a usage report. -/
structure UsageDetails where
  text_tokens : Option Int
  image_tokens : Option Int
deriving DecidableEq

/-- Optional token-accounting breakdown of a generation response. -/
structure Usage where
  input_tokens : Option Int
  input_tokens_details : Option UsageDetails
  output_tokens : Option Int
  total_tokens : Option Int
deriving DecidableEq

/-- `GenerationRecord` from src/lib/types.ts.  String-literal unions
(`type`, `size`, `model`) are carried as strings; `base64Images` holds
IndexedDB storage keys once the record is in the ledger. -/
structure GenerationRecord where
  id : String
  type : String
  prompt : Option String
  size : String
  n : Int
  cost : Int
  createdAt : Int
  originalImage : Option String
  maskImage : Option String
  base64Images : List String
  requestTime : Int
  model : String
  usage : Option Usage
deriving DecidableEq

/-! ### History ledger operations (src: the Home page component) -/

/-- The history capacity cap from the Home component. -/
def MAX_HISTORY_LENGTH : Nat := 100

/-- The keys `updateHistory` mints for a record's result images:
`` `${newRecord.id}_${index}` `` for each index. -/
def mintedKeys (rid : String) (count : Nat) : List String :=
  (List.range count).map fun i => rid ++ "_" ++ toString i

/-- The record as stored in the ledger: `base64Images` replaced by the
minted storage keys. -/
def storageRecordOf (r : GenerationRecord) : GenerationRecord :=
  { r with base64Images := mintedKeys r.id r.base64Images.length }

/-- The image-saving loop of `updateHistory`: convert each data URL
(`dataURLtoBlob` may throw), save it under `` `${id}_${index}` ``, return
the minted keys.  The source runs the saves through `Promise.all`; in the
single-threaded model they are sequenced in index order, and a conversion
failure rejects the whole operation. -/
def saveResultImages (rid : String) :
    List String → Nat → DBState → Except String (List String × DBState)
  | [], _, st => .ok ([], st)
  | d :: ds, i, st =>
    match dataURLtoBlob d with
    | .error e => .error e
    | .ok blob =>
      let imageKey := rid ++ "_" ++ toString i
      match saveResultImages rid ds (i + 1) (saveImage imageKey blob st) with
      | .error e => .error e
      | .ok (keys, st') => .ok (imageKey :: keys, st')

/-- `updateHistory` from the Home component: save the record's images
under minted keys, replace `base64Images` by those keys, prepend the
record; when the ledger exceeds `MAX_HISTORY_LENGTH`, pop the oldest
(last) record and delete each of its stored image keys. -/
def updateHistory (newRecord : GenerationRecord) (prev : List GenerationRecord)
    (st : DBState) : Except String (List GenerationRecord × DBState) :=
  match saveResultImages newRecord.id newRecord.base64Images 0 st with
  | .error e => .error e
  | .ok (imageKeys, st1) =>
    let storageRecord := { newRecord with base64Images := imageKeys }
    let updated := storageRecord :: prev
    if updated.length > MAX_HISTORY_LENGTH then
      match updated.getLast? with
      | some oldest =>
          .ok (updated.dropLast,
               oldest.base64Images.foldl (fun s k => deleteImage k s) st1)
      | none => .ok (updated, st1)
    else
      .ok (updated, st1)

/-- A sequence of `updateHistory` appends, threading ledger and storage;
stops at the first rejected append. -/
def appendMany : List GenerationRecord → List GenerationRecord → DBState →
    Except String (List GenerationRecord × DBState)
  | [], hist, st => .ok (hist, st)
  | r :: rs, hist, st =>
    match updateHistory r hist st with
    | .error e => .error e
    | .ok (hist', st') => appendMany rs hist' st'

/-- The per-record image loop of `deleteRecords`: the `try` block wraps
the whole loop, so the first failing `deleteImage` aborts the remaining
deletes of that record; the `catch` only logs. -/
def deleteRecordImages (fail : String → Bool) :
    List String → DBState → DBState
  | [], st => st
  | k :: ks, st =>
    match deleteImageF fail k st with
    | .ok st' => deleteRecordImages fail ks st'
    | .error st' => st'

/-- `deleteRecords` from the Home component: for each id, delete the
found record's `base64Images` keys (best-effort, see
`deleteRecordImages`), then filter the ids out of the ledger.  `fail`
injects storage failures; pass `fun _ => false` for the failure-free run. -/
def deleteRecords (fail : String → Bool) (ids : List String)
    (history : List GenerationRecord) (st : DBState) :
    List GenerationRecord × DBState :=
  let st' := ids.foldl (fun s i =>
    match history.find? (fun r => r.id == i) with
    | some record => deleteRecordImages fail record.base64Images s
    | none => s) st
  (history.filter (fun record => !ids.contains record.id), st')

/-! ### Backup export/import (src/lib/backup.ts) -/

/-- The `images` bundle of one exported record. -/
structure BackupImages where
  results : List String
  original : Option String
  mask : Option String
deriving DecidableEq

/-- One `{record, images}` entry of a backup document. -/
structure BackupEntry where
  record : GenerationRecord
  images : BackupImages
deriving DecidableEq

/-- The typed `BackupData` shape (`version` is `1` on every export). -/
structure BackupData where
  version : Int
  exportedAt : Int
  records : List BackupEntry
deriving DecidableEq

/-- The `ImportResult` shape returned by `importBackup`. -/
structure ImportResult where
  imported : Nat
  skipped : Nat
  newRecords : List GenerationRecord
deriving DecidableEq

/-- Export loop over one record's result keys: fetch each via
`getImageAsDataUrl`, keep only the found ones. -/
def exportResultImages : List String → DBState → List String × DBState
  | [], st => ([], st)
  | k :: ks, st =>
    let (d, st1) := getImageAsDataUrl k st
    let (rest, st2) := exportResultImages ks st1
    match d with
    | some dataUrl => (dataUrl :: rest, st2)
    | none => (rest, st2)

/-- Export of an optional source/mask key: fetch when the key is present. -/
def exportOptImage : Option String → DBState → Option String × DBState
  | none, st => (none, st)
  | some k, st => getImageAsDataUrl k st

/-- The per-record export loop of `exportBackup`. -/
def exportEntries : List GenerationRecord → DBState → List BackupEntry × DBState
  | [], st => ([], st)
  | r :: rs, st =>
    let (results, st1) := exportResultImages r.base64Images st
    let (original, st2) := exportOptImage r.originalImage st1
    let (mask, st3) := exportOptImage r.maskImage st2
    let (rest, st4) := exportEntries rs st3
    ({ record := r, images := { results := results, original := original, mask := mask } } :: rest,
     st4)

/-- `exportBackup` from src/lib/backup.ts: bundle every ledger record with
its fetched images; `now` stands for `Date.now()`. -/
def exportBackup (now : Int) (history : List GenerationRecord) (st : DBState) :
    BackupData × DBState :=
  let (records, st') := exportEntries history st
  ({ version := 1, exportedAt := now, records := records }, st')

/-- The result-image import loop: derive `` `${id}_result_${i}` ``, decode
the data URL (a throw aborts the import, keeping earlier writes), save. -/
def importResultImages (rid : String) :
    List String → Nat → DBState → Except String (List String) × DBState
  | [], _, st => (.ok [], st)
  | d :: ds, i, st =>
    let key := rid ++ "_result_" ++ toString i
    match dataURLToBlob d with
    | .error e => (.error e, st)
    | .ok blob =>
      match importResultImages rid ds (i + 1) (saveImage key blob st) with
      | (.error e, st') => (.error e, st')
      | (.ok keys, st') => (.ok (key :: keys), st')

/-- Import of an optional original/mask image under its derived key. -/
def importOptImage (key : String) :
    Option String → DBState → Except String (Option String) × DBState
  | none, st => (.ok none, st)
  | some d, st =>
    match dataURLToBlob d with
    | .error e => (.error e, st)
    | .ok blob => (.ok (some key), saveImage key blob st)

/-- The entry loop of `importBackup`: skip entries whose id is already in
the existing history (counted, no writes), otherwise write the decoded
images under freshly derived keys and collect the re-pointed record. -/
def importEntries (existingIds : List String) :
    List BackupEntry → DBState → Except String (Nat × List GenerationRecord) × DBState
  | [], st => (.ok (0, []), st)
  | e :: es, st =>
    if existingIds.contains e.record.id then
      match importEntries existingIds es st with
      | (.error err, st') => (.error err, st')
      | (.ok (sk, recs), st') => (.ok (sk + 1, recs), st')
    else
      match importResultImages e.record.id e.images.results 0 st with
      | (.error err, st1) => (.error err, st1)
      | (.ok newImageKeys, st1) =>
        match importOptImage (e.record.id ++ "_original") e.images.original st1 with
        | (.error err, st2) => (.error err, st2)
        | (.ok originalKey, st2) =>
          match importOptImage (e.record.id ++ "_mask") e.images.mask st2 with
          | (.error err, st3) => (.error err, st3)
          | (.ok maskKey, st3) =>
            let newRecord := { e.record with
              base64Images := newImageKeys,
              originalImage := originalKey,
              maskImage := maskKey }
            match importEntries existingIds es st3 with
            | (.error err, st4) => (.error err, st4)
            | (.ok (sk, recs), st4) => (.ok (sk, newRecord :: recs), st4)

/-- `importBackup` from src/lib/backup.ts, on an already-validated typed
document: process the entries against the existing ids and report
`{imported, skipped, newRecords}`. -/
def importBackup (data : BackupData) (existingHistory : List GenerationRecord)
    (st : DBState) : Except String ImportResult × DBState :=
  let existingIds := existingHistory.map (·.id)
  match importEntries existingIds data.records st with
  | (.error e, st') => (.error e, st')
  | (.ok (skipped, newRecords), st') =>
      (.ok { imported := newRecords.length, skipped := skipped, newRecords := newRecords }, st')

/-! ### The untyped JSON boundary of `importBackup` -/

mutual
/-- A JSON value, as produced by `JSON.parse` (numbers carried as `Int`). -/
inductive JVal where
  | null
  | bool (b : Bool)
  | num (n : Int)
  | str (s : String)
  | arr (elems : JArr)
  | obj (fields : JObj)
deriving DecidableEq

/-- The elements of a JSON array. -/
inductive JArr where
  | nil
  | cons (hd : JVal) (tl : JArr)
deriving DecidableEq

/-- The fields of a JSON object. -/
inductive JObj where
  | nil
  | cons (key : String) (val : JVal) (tl : JObj)
deriving DecidableEq
end

/-- First field with the given key, as JavaScript property lookup. -/
def JObj.lookup : JObj → String → Option JVal
  | .nil, _ => none
  | .cons k v t, q => if k = q then some v else t.lookup q

/-- The elements of a JSON array, as a list. -/
def JArr.toList : JArr → List JVal
  | .nil => []
  | .cons h t => h :: t.toList

/-- JavaScript property access `j[k]`: a field of an object, `undefined`
(`none`) otherwise. -/
def jget (j : JVal) (k : String) : Option JVal :=
  match j with
  | .obj fields => fields.lookup k
  | _ => none

/-- The check `obj.version !== 1`. -/
def versionOk (j : JVal) : Bool := decide (jget j "version" = some (.num 1))

/-- The check `typeof obj.exportedAt !== 'number'`. -/
def exportedAtOk (j : JVal) : Bool :=
  match jget j "exportedAt" with
  | some (.num _) => true
  | _ => false

/-- The check `!Array.isArray(obj.records)`. -/
def recordsOk (j : JVal) : Bool :=
  match jget j "records" with
  | some (.arr _) => true
  | _ => false

/-- `isValidBackupData` from src/lib/backup.ts: the input must be a
non-null value of `typeof` `'object'` (an object or an array; property
access on an array yields `undefined`), its `version` strictly equal to
`1`, its `exportedAt` a number and its `records` an array. -/
def isValidBackupData (data : JVal) : Bool :=
  match data with
  | .null | .bool _ | .num _ | .str _ => false
  | _ => versionOk data && exportedAtOk data && recordsOk data

/-- Decode a JSON string. -/
def decodeStr : JVal → Option String
  | .str s => some s
  | _ => none

/-- Decode a JSON number. -/
def decodeInt : JVal → Option Int
  | .num n => some n
  | _ => none

/-- Decode a JSON array of strings. -/
def decodeStrList : JVal → Option (List String)
  | .arr xs => xs.toList.mapM decodeStr
  | _ => none

/-- Decode the nested `input_tokens_details` object. -/
def decodeUsageDetails (j : JVal) : Option UsageDetails :=
  match j with
  | .obj _ => some
      { text_tokens := (jget j "text_tokens").bind decodeInt,
        image_tokens := (jget j "image_tokens").bind decodeInt }
  | _ => none

/-- Decode a `usage` object. -/
def decodeUsage (j : JVal) : Option Usage :=
  match j with
  | .obj _ => some
      { input_tokens := (jget j "input_tokens").bind decodeInt,
        input_tokens_details := (jget j "input_tokens_details").bind decodeUsageDetails,
        output_tokens := (jget j "output_tokens").bind decodeInt,
        total_tokens := (jget j "total_tokens").bind decodeInt }
  | _ => none

/-- Decode a JSON-encoded `GenerationRecord`.  The source performs no such
check (the cast in `isValidBackupData` trusts the entries); the decoder
restricts the model to backups whose entries have the declared shape. -/
def decodeRecord (j : JVal) : Option GenerationRecord :=
  match j with
  | .obj _ => do
    let id ← (jget j "id").bind decodeStr
    let ty ← (jget j "type").bind decodeStr
    let size ← (jget j "size").bind decodeStr
    let n ← (jget j "n").bind decodeInt
    let cost ← (jget j "cost").bind decodeInt
    let createdAt ← (jget j "createdAt").bind decodeInt
    let base64Images ← (jget j "base64Images").bind decodeStrList
    let requestTime ← (jget j "requestTime").bind decodeInt
    let model ← (jget j "model").bind decodeStr
    some { id := id, type := ty,
           prompt := (jget j "prompt").bind decodeStr,
           size := size, n := n, cost := cost, createdAt := createdAt,
           originalImage := (jget j "originalImage").bind decodeStr,
           maskImage := (jget j "maskImage").bind decodeStr,
           base64Images := base64Images, requestTime := requestTime,
           model := model,
           usage := (jget j "usage").bind decodeUsage }
  | _ => none

/-- Decode one `{record, images}` backup entry. -/
def decodeEntry (j : JVal) : Option BackupEntry := do
  let record ← (jget j "record").bind decodeRecord
  let images ← jget j "images"
  let results ← (jget images "results").bind decodeStrList
  some { record := record,
         images := { results := results,
                     original := (jget images "original").bind decodeStr,
                     mask := (jget images "mask").bind decodeStr } }

/-- Decode the `records` array of a validated backup document. -/
def decodeBackupRecords (j : JVal) : Option (List BackupEntry) :=
  match jget j "records" with
  | some (.arr xs) => xs.toList.mapM decodeEntry
  | _ => none

/-- `importBackup` at its untyped boundary: reject the document with
`'Invalid backup file format'` (and no state change) unless
`isValidBackupData` accepts it, then process the entries.  Validated
documents whose entries fall outside the typed fragment are outside the
model and reported as a distinct error. -/
def importBackupJ (data : JVal) (existingHistory : List GenerationRecord)
    (st : DBState) : Except String ImportResult × DBState :=
  if isValidBackupData data then
    match jget data "exportedAt", decodeBackupRecords data with
    | some (.num t), some entries =>
        importBackup { version := 1, exportedAt := t, records := entries }
          existingHistory st
    | _, _ => (.error "entries outside the modelled fragment", st)
  else
    (.error "Invalid backup file format", st)

/-- The merge step of `handleImport` in the settings dialog: when anything
was imported, prepend `newRecords` to the previous ledger (no cap is
applied here). -/
def handleImportMerge (result : ImportResult) (prev : List GenerationRecord) :
    List GenerationRecord :=
  if result.imported > 0 then result.newRecords ++ prev else prev

/-- The original-image key minted by `handleSubmit` in the workspace
component. -/
def handleSubmitOriginalKey (id : String) : String := id ++ "_original"

/-- The mask-image key minted by `handleSubmit` in the workspace
component. -/
def handleSubmitMaskKey (id : String) : String := id ++ "_mask"

/-! ### The spec's key scheme, and shared concrete fixtures -/

/-- The spec's Blob Store key scheme: `{recordId}_{role}[_index]` with
role drawn from `{result, original, mask}` (an index only for results). -/
def FollowsKeyScheme (recordId key : String) : Prop :=
  key = recordId ++ "_original" ∨ key = recordId ++ "_mask" ∨
    ∃ i : Nat, key = recordId ++ "_result_" ++ toString i

/-- A concrete record used by the witnesses and counterexamples. -/
def mkRec (i : String) (imgs : List String) : GenerationRecord :=
  { id := i, type := "generate", prompt := some "a prompt", size := "256x256",
    n := 1, cost := 0, createdAt := 0, originalImage := none, maskImage := none,
    base64Images := imgs, requestTime := 0, model := "dall-e-2", usage := none }

/-- A concrete PNG-tagged blob. -/
def blobA : Blob := { type := "image/png", data := [0, 0, 0] }

/-- A second concrete blob with different bytes. -/
def blobB : Blob := { type := "image/png", data := [0, 0, 1] }

/-- A ledger already holding the full cap of 100 records. -/
def hist100C : List GenerationRecord := List.replicate 100 (mkRec "b" [])

/-- A one-entry backup document with no images. -/
def dataN : BackupData := ⟨1, 0, [⟨mkRec "n" [], ⟨[], none, none⟩⟩]⟩

/-- A failure oracle rejecting the delete of key `"a_0"`. -/
def failA : String → Bool := fun k => k == "a_0"

/-- A failure oracle rejecting the delete of key `"f"`. -/
def failW : String → Bool := fun k => k == "f"

/-- A stored record whose two result keys are `"a_0"` and `"a_1"`. -/
def recC8 : GenerationRecord := mkRec "a" ["a_0", "a_1"]

/-- A store holding blobs under `"a_0"` and `"a_1"`. -/
def stC8 : DBState := saveImage "a_1" blobB (saveImage "a_0" blobA emptyDB)

/-- A backup entry for id `"x"` with one decodable data URL. -/
def e1W : BackupEntry := ⟨mkRec "x" [], ⟨["data:image/png;base64,AAAA"], none, none⟩⟩

/-- A second backup entry for the same id `"x"` with different bytes. -/
def e2W : BackupEntry := ⟨mkRec "x" [], ⟨["data:image/png;base64,AAAB"], none, none⟩⟩

/-- A store holding one blob under key `"k0"`. -/
def stC1 : DBState := saveImage "k0" blobA emptyDB

/-- A stored record referencing key `"k0"`. -/
def recC1 : GenerationRecord := mkRec "r1" ["k0"]

/-- A stored record with two result keys and a mask key. -/
def recC2 : GenerationRecord := { mkRec "r1" ["r1_0", "r1_1"] with maskImage := some "r1_mask" }

/-- A store holding the three blobs referenced by `recC2`. -/
def stC2 : DBState := saveImage "r1_mask" blobB (saveImage "r1_1" blobA (saveImage "r1_0" blobA emptyDB))

/-- A structurally invalid backup document (`version` is `2`). -/
def jBad : JVal :=
  .obj (.cons "version" (.num 2)
    (.cons "exportedAt" (.num 0) (.cons "records" (.arr .nil) .nil)))

/-! ### Basic state lemmas -/

theorem upd_self (f : String → Option α) (k : String) (v : Option α) :
    upd f k v k = v := by
  simp [upd]

theorem upd_other (f : String → Option α) (k q : String) (v : Option α)
    (h : q ≠ k) : upd f k v q = f q := by
  simp [upd, h]

theorem revokeCachedUrl_store (k : String) (st : DBState) :
    (revokeCachedUrl k st).store = st.store := by
  unfold revokeCachedUrl
  cases st.cache k <;> rfl

theorem revokeCachedUrl_writeLog (k : String) (st : DBState) :
    (revokeCachedUrl k st).writeLog = st.writeLog := by
  unfold revokeCachedUrl
  cases st.cache k <;> rfl

theorem saveImage_store (k : String) (b : Blob) (st : DBState) :
    (saveImage k b st).store = upd st.store k (some b) := by
  simp [saveImage, revokeCachedUrl_store]

theorem saveImage_writeLog (k : String) (b : Blob) (st : DBState) :
    (saveImage k b st).writeLog = st.writeLog ++ [k] := by
  simp [saveImage, revokeCachedUrl_writeLog]

theorem deleteImage_store (k : String) (st : DBState) :
    (deleteImage k st).store = upd st.store k none := by
  simp [deleteImage, revokeCachedUrl_store]

/-! ### Lemmas about `updateHistory` -/

theorem saveResultImages_keys (rid : String) :
    ∀ (ds : List String) (i : Nat) (st : DBState) (ks : List String) (st' : DBState),
      saveResultImages rid ds i st = .ok (ks, st') →
      ks = (List.range ds.length).map (fun j => rid ++ "_" ++ toString (i + j)) := by
  intro ds
  induction ds with
  | nil =>
      intro i st ks st' h
      simp only [saveResultImages] at h
      cases h
      simp
  | cons d ds ih =>
      intro i st ks st' h
      simp only [saveResultImages] at h
      cases hd : dataURLtoBlob d with
      | error e => simp only [hd] at h; exact Except.noConfusion h
      | ok blob =>
          simp only [hd] at h
          cases hrec : saveResultImages rid ds (i + 1)
              (saveImage (rid ++ "_" ++ toString i) blob st) with
          | error e => simp only [hrec] at h; exact Except.noConfusion h
          | ok p =>
              obtain ⟨ks', st''⟩ := p
              simp only [hrec] at h
              cases h
              rw [ih (i + 1) _ ks' _ hrec]
              simp only [List.length_cons, List.range_succ_eq_map, List.map_cons,
                List.map_map, List.cons.injEq]
              refine ⟨by simp, ?_⟩
              apply List.map_congr_left
              intro a _
              simp only [Function.comp_apply]
              have haj : i + 1 + a = i + (a + 1) := by omega
              rw [haj]

theorem saveResultImages_mintedKeys (r : GenerationRecord) (st : DBState)
    (ks : List String) (st' : DBState)
    (h : saveResultImages r.id r.base64Images 0 st = .ok (ks, st')) :
    ks = mintedKeys r.id r.base64Images.length := by
  rw [saveResultImages_keys r.id r.base64Images 0 st ks st' h]
  simp [mintedKeys]

/-- Case analysis of a successful `updateHistory`: either the ledger had
room and the stored record is prepended, or the ledger was over capacity
after the prepend and the last record is dropped. -/
theorem updateHistory_ok_cases (r : GenerationRecord) (prev : List GenerationRecord)
    (st : DBState) (l : List GenerationRecord) (st' : DBState)
    (h : updateHistory r prev st = .ok (l, st')) :
    (prev.length + 1 ≤ MAX_HISTORY_LENGTH ∧ l = storageRecordOf r :: prev) ∨
    (prev.length + 1 > MAX_HISTORY_LENGTH ∧ l = (storageRecordOf r :: prev).dropLast) := by
  simp only [updateHistory] at h
  cases hs : saveResultImages r.id r.base64Images 0 st with
  | error e => rw [hs] at h; cases h
  | ok p =>
      obtain ⟨keys, st1⟩ := p
      rw [hs] at h
      have hk : keys = mintedKeys r.id r.base64Images.length :=
        saveResultImages_mintedKeys r st keys st1 hs
      subst hk
      simp only at h
      by_cases hlen : ({ r with base64Images := mintedKeys r.id r.base64Images.length } ::
          prev).length > MAX_HISTORY_LENGTH
      · rw [if_pos hlen] at h
        cases hgl : ({ r with base64Images := mintedKeys r.id r.base64Images.length } ::
            prev).getLast? with
        | none => exact absurd (List.getLast?_eq_none_iff.mp hgl) (by simp)
        | some oldest =>
            rw [hgl] at h
            cases h
            right
            refine ⟨by simpa using hlen, rfl⟩
      · rw [if_neg hlen] at h
        cases h
        left
        refine ⟨by simpa using hlen, rfl⟩

theorem updateHistory_length_le (r : GenerationRecord) (prev : List GenerationRecord)
    (st : DBState) (l : List GenerationRecord) (st' : DBState)
    (hle : prev.length ≤ MAX_HISTORY_LENGTH)
    (h : updateHistory r prev st = .ok (l, st')) :
    l.length ≤ MAX_HISTORY_LENGTH := by
  rcases updateHistory_ok_cases r prev st l st' h with ⟨hc, rfl⟩ | ⟨hc, rfl⟩
  · simpa using hc
  · simp only [List.length_dropLast, List.length_cons]
    omega

theorem appendMany_length_le :
    ∀ (rs hist : List GenerationRecord) (st : DBState)
      (l : List GenerationRecord) (st' : DBState),
      hist.length ≤ MAX_HISTORY_LENGTH →
      appendMany rs hist st = .ok (l, st') →
      l.length ≤ MAX_HISTORY_LENGTH := by
  intro rs
  induction rs with
  | nil =>
      intro hist st l st' hle h
      simp only [appendMany] at h
      cases h
      exact hle
  | cons r rs ih =>
      intro hist st l st' hle h
      simp only [appendMany] at h
      cases hu : updateHistory r hist st with
      | error e => rw [hu] at h; cases h
      | ok p =>
          obtain ⟨hist', st1⟩ := p
          rw [hu] at h
          exact ih hist' st1 l st' (updateHistory_length_le r hist st hist' st1 hle hu) h

/-! ### Lemmas about `importBackup` -/

theorem importResultImages_writes (rid : String) :
    ∀ (ds : List String) (i : Nat) (st : DBState) (r : Except String (List String))
      (st' : DBState),
      importResultImages rid ds i st = (r, st') →
      ∀ k ∈ st'.writeLog, k ∈ st.writeLog ∨ ∃ j : Nat, k = rid ++ "_result_" ++ toString j := by
  intro ds
  induction ds with
  | nil =>
      intro i st r st' h k hk
      simp only [importResultImages] at h
      cases h
      exact Or.inl hk
  | cons d ds ih =>
      intro i st r st' h k hk
      simp only [importResultImages] at h
      cases hd : dataURLToBlob d with
      | error e =>
          simp only [hd] at h
          cases h
          exact Or.inl hk
      | ok blob =>
          simp only [hd] at h
          cases hrec : importResultImages rid ds (i + 1)
              (saveImage (rid ++ "_result_" ++ toString i) blob st) with
          | mk r' st'' =>
              rw [hrec] at h
              have hsub := ih (i + 1) _ r' st'' hrec k
              cases r' with
              | error e =>
                  cases h
                  rcases hsub hk with hin | hj
                  · rw [saveImage_writeLog] at hin
                    rcases List.mem_append.mp hin with hin | hin
                    · exact Or.inl hin
                    · exact Or.inr ⟨i, by simpa using hin⟩
                  · exact Or.inr hj
              | ok ks =>
                  cases h
                  rcases hsub hk with hin | hj
                  · rw [saveImage_writeLog] at hin
                    rcases List.mem_append.mp hin with hin | hin
                    · exact Or.inl hin
                    · exact Or.inr ⟨i, by simpa using hin⟩
                  · exact Or.inr hj

theorem importOptImage_writes (key : String) (d : Option String) (st : DBState)
    (r : Except String (Option String)) (st' : DBState)
    (h : importOptImage key d st = (r, st')) :
    ∀ k ∈ st'.writeLog, k ∈ st.writeLog ∨ k = key := by
  intro k hk
  cases d with
  | none =>
      simp only [importOptImage] at h
      cases h
      exact Or.inl hk
  | some dataUrl =>
      simp only [importOptImage] at h
      cases hd : dataURLToBlob dataUrl with
      | error e =>
          simp only [hd] at h
          cases h
          exact Or.inl hk
      | ok blob =>
          simp only [hd] at h
          cases h
          rw [saveImage_writeLog] at hk
          rcases List.mem_append.mp hk with hin | hin
          · exact Or.inl hin
          · exact Or.inr (by simpa using hin)

/-- Accounting and write-provenance of the entry loop: on success, the
skip counter plus the number of collected records equals the number of
entries, and every key in the final write log was either already there or
was minted — following the key scheme — for an entry whose id is not in
`existingIds`. -/
theorem importEntries_spec (existingIds : List String) :
    ∀ (entries : List BackupEntry) (st : DBState) (sk : Nat)
      (recs : List GenerationRecord) (st' : DBState),
      importEntries existingIds entries st = (.ok (sk, recs), st') →
      sk + recs.length = entries.length ∧
      ∀ k ∈ st'.writeLog, k ∈ st.writeLog ∨
        ∃ e ∈ entries, existingIds.contains e.record.id = false ∧
          FollowsKeyScheme e.record.id k := by
  intro entries
  induction entries with
  | nil =>
      intro st sk recs st' h
      simp only [importEntries] at h
      cases h
      exact ⟨rfl, fun k hk => Or.inl hk⟩
  | cons e es ih =>
      intro st sk recs st' h
      simp only [importEntries] at h
      by_cases hskip : existingIds.contains e.record.id
      · rw [if_pos hskip] at h
        cases hrec : importEntries existingIds es st with
        | mk r' st'' =>
            rw [hrec] at h
            cases r' with
            | error err => cases h
            | ok p =>
                obtain ⟨sk', recs'⟩ := p
                cases h
                obtain ⟨hcount, hwrites⟩ := ih _ _ _ _ hrec
                refine ⟨by simpa using by omega, ?_⟩
                intro k hk
                rcases hwrites k hk with hin | ⟨e', he', hne, hsch⟩
                · exact Or.inl hin
                · exact Or.inr ⟨e', List.mem_cons_of_mem e he', hne, hsch⟩
      · rw [if_neg hskip] at h
        have hskip' : existingIds.contains e.record.id = false :=
          Bool.not_eq_true _ ▸ eq_false_of_ne_true (fun hc => hskip hc)
        cases hres : importResultImages e.record.id e.images.results 0 st with
        | mk r1 st1 =>
            rw [hres] at h
            cases r1 with
            | error err => cases h
            | ok newImageKeys =>
                dsimp only at h
                cases horig : importOptImage (e.record.id ++ "_original") e.images.original st1 with
                | mk r2 st2 =>
                    rw [horig] at h
                    cases r2 with
                    | error err => cases h
                    | ok originalKey =>
                        dsimp only at h
                        cases hmask : importOptImage (e.record.id ++ "_mask") e.images.mask st2 with
                        | mk r3 st3 =>
                            rw [hmask] at h
                            cases r3 with
                            | error err => cases h
                            | ok maskKey =>
                                dsimp only at h
                                cases hrec : importEntries existingIds es st3 with
                                | mk r4 st4 =>
                                    rw [hrec] at h
                                    cases r4 with
                                    | error err => cases h
                                    | ok p =>
                                        obtain ⟨sk', recs'⟩ := p
                                        cases h
                                        obtain ⟨hcount, hwrites⟩ := ih _ _ _ _ hrec
                                        constructor
                                        · simpa using by omega
                                        · intro k hk
                                          rcases hwrites k hk with hin3 | ⟨e', he', hne, hsch⟩
                                          · rcases importOptImage_writes _ _ _ _ _ hmask k hin3 with hin2 | rfl
                                            · rcases importOptImage_writes _ _ _ _ _ horig k hin2 with hin1 | rfl
                                              · rcases importResultImages_writes _ _ _ _ _ _ hres k hin1 with hin0 | ⟨j, rfl⟩
                                                · exact Or.inl hin0
                                                · exact Or.inr ⟨e, List.mem_cons_self e es, hskip',
                                                    Or.inr (Or.inr ⟨j, rfl⟩)⟩
                                              · exact Or.inr ⟨e, List.mem_cons_self e es, hskip',
                                                  Or.inl rfl⟩
                                            · exact Or.inr ⟨e, List.mem_cons_self e es, hskip',
                                                Or.inr (Or.inl rfl)⟩
                                          · exact Or.inr ⟨e', List.mem_cons_of_mem e he', hne, hsch⟩

/-! ### Claim theorems -/

/-- C10: the two data-URL-to-Blob conversion functions — `dataURLtoBlob`
in the API module and `dataURLToBlob` in the URL-types module — are
extensionally equal: on every input string they produce the same result
(same MIME type and same byte content, and the same failure behaviour). -/
theorem c10_dataurl_conversions_agree : ∀ s : String, dataURLtoBlob s = dataURLToBlob s :=
  fun _ => rfl

/-- C1 (code bug): the export/import round trip does not reproduce the
image bytes.  On a one-record history whose blob is present, `exportBackup`
emits the object URL `"blob:0"` — a session-scoped reference that embeds
neither MIME type nor content — and importing the resulting document into
an empty target environment throws inside `dataURLToBlob`, importing
nothing and writing nothing. -/
theorem c1_export_objecturl_roundtrip_fails :
    ((exportBackup 0 [recC1] stC1).1).records = [⟨recC1, ⟨["blob:0"], none, none⟩⟩] ∧
    (importBackup (exportBackup 0 [recC1] stC1).1 [] emptyDB).1 =
      .error "InvalidCharacterError" ∧
    (importBackup (exportBackup 0 [recC1] stC1).1 [] emptyDB).2.writeLog = [] := by
  refine ⟨by decide, by decide, by decide⟩

/-- C2 (code bug): deleting a record that holds two result-image keys and
a mask-image key removes the record from the ledger and the two result
entries from the store, but the mask entry is still present afterwards —
`deleteRecords` only iterates `base64Images`. -/
theorem c2_delete_leaves_mask_entry :
    (deleteRecords (fun _ => false) ["r1"] [recC2] stC2).1 = [] ∧
    (deleteRecords (fun _ => false) ["r1"] [recC2] stC2).2.store "r1_0" = none ∧
    (deleteRecords (fun _ => false) ["r1"] [recC2] stC2).2.store "r1_1" = none ∧
    ¬ ((deleteRecords (fun _ => false) ["r1"] [recC2] stC2).2.store "r1_mask" = none) := by
  refine ⟨by decide, by decide, by decide, by decide⟩

/-- C3 counterexample: merging an import result with one new record into a
ledger that already holds the cap of 100 records yields 101 records — the
capacity cap is not re-applied by the merge. -/
theorem c3_merge_exceeds_cap :
    ¬ ((handleImportMerge ⟨1, 0, [mkRec "n" []]⟩ hist100C).length ≤ MAX_HISTORY_LENGTH) := by
  decide

/-- C3 (amended): after an import with newly imported records the caller
merges them by prepending only; no capacity cap is applied, so the merged
length is exactly `importedCount`-many records plus the previous length
(and can exceed the cap). -/
theorem c3_merge_prepends_without_cap (result : ImportResult)
    (prev : List GenerationRecord) (h : 0 < result.imported) :
    handleImportMerge result prev = result.newRecords ++ prev ∧
    (handleImportMerge result prev).length = result.newRecords.length + prev.length := by
  unfold handleImportMerge
  rw [if_pos h]
  exact ⟨rfl, by simp⟩

theorem c3_merge_prepends_without_cap_witness :
    handleImportMerge ⟨1, 0, [mkRec "n" []]⟩ hist100C = [mkRec "n" []] ++ hist100C ∧
    (handleImportMerge ⟨1, 0, [mkRec "n" []]⟩ hist100C).length =
      [mkRec "n" []].length + hist100C.length :=
  c3_merge_prepends_without_cap ⟨1, 0, [mkRec "n" []]⟩ hist100C (by decide)

/-- C4: over any sequence of appends starting from a ledger of length at
most the cap, the ledger length never exceeds the cap; and an append to a
full ledger prepends the stored record and evicts exactly the oldest
(last) record. -/
theorem c4_append_cap_and_eviction :
    (∀ (rs hist : List GenerationRecord) (st : DBState)
        (l : List GenerationRecord) (st' : DBState),
        hist.length ≤ MAX_HISTORY_LENGTH → appendMany rs hist st = .ok (l, st') →
        l.length ≤ MAX_HISTORY_LENGTH) ∧
    (∀ (r : GenerationRecord) (hist : List GenerationRecord) (st : DBState)
        (l : List GenerationRecord) (st' : DBState),
        hist.length = MAX_HISTORY_LENGTH → updateHistory r hist st = .ok (l, st') →
        l = storageRecordOf r :: hist.dropLast) := by
  constructor
  · exact appendMany_length_le
  · intro r hist st l st' hfull h
    rcases updateHistory_ok_cases r hist st l st' h with ⟨hc, rfl⟩ | ⟨hc, rfl⟩
    · exfalso
      rw [hfull] at hc
      exact absurd hc (by decide)
    · have hne : hist ≠ [] := by
        intro hnil
        rw [hnil] at hfull
        exact absurd hfull (by decide)
      exact List.dropLast_cons_of_ne_nil hne

theorem c4_append_cap_and_eviction_witness :
    [storageRecordOf (mkRec "a" [])].length ≤ MAX_HISTORY_LENGTH ∧
    (storageRecordOf (mkRec "a" []) :: hist100C).dropLast =
      storageRecordOf (mkRec "a" []) :: hist100C.dropLast := by
  constructor
  · exact c4_append_cap_and_eviction.1 [mkRec "a" []] [] emptyDB _ _ (by decide) rfl
  · exact c4_append_cap_and_eviction.2 (mkRec "a" []) hist100C emptyDB _ _ (by decide) rfl

/-- C5: on any input whose top-level shape is invalid — `version` not
strictly equal to `1`, or `exportedAt` not a number, or `records` not an
array — `importBackupJ` rejects the whole import with the descriptive
error `'Invalid backup file format'`, leaving the storage state (and hence
the write log and the untouched history) unchanged. -/
theorem c5_invalid_backup_rejected (j : JVal) (hist : List GenerationRecord)
    (st : DBState)
    (h : jget j "version" ≠ some (.num 1) ∨
         (∀ t : Int, jget j "exportedAt" ≠ some (.num t)) ∨
         (∀ xs : JArr, jget j "records" ≠ some (.arr xs))) :
    importBackupJ j hist st = (.error "Invalid backup file format", st) := by
  have hv : isValidBackupData j = false := by
    cases j with
    | null => rfl
    | bool b => rfl
    | num n => rfl
    | str s => rfl
    | arr a => rfl
    | obj fields =>
        rcases h with h | h | h
        · have hvo : versionOk (.obj fields) = false := decide_eq_false h
          simp [isValidBackupData, hvo]
        · have hea : exportedAtOk (.obj fields) = false := by
            unfold exportedAtOk
            cases hjv : jget (.obj fields) "exportedAt" with
            | none => rfl
            | some v =>
                cases v with
                | num t => exact absurd hjv (h t)
                | null => rfl
                | bool b => rfl
                | str s => rfl
                | arr a => rfl
                | obj o => rfl
          simp [isValidBackupData, hea]
        · have hra : recordsOk (.obj fields) = false := by
            unfold recordsOk
            cases hjv : jget (.obj fields) "records" with
            | none => rfl
            | some v =>
                cases v with
                | arr a => exact absurd hjv (h a)
                | null => rfl
                | bool b => rfl
                | num n => rfl
                | str s => rfl
                | obj o => rfl
          simp [isValidBackupData, hra]
  unfold importBackupJ
  rw [hv]
  simp

theorem c5_invalid_backup_rejected_witness :
    importBackupJ jBad [] emptyDB = (.error "Invalid backup file format", emptyDB) :=
  c5_invalid_backup_rejected jBad [] emptyDB (Or.inl (by decide))

/-- C6 counterexample: on creation, `updateHistory` mints the result-image
key `"7_0"` for a record with id `"7"` — a key with no role segment, which
does not follow the `{recordId}_{role}[_index]` scheme. -/
theorem c6_creation_key_lacks_role :
    (updateHistory (mkRec "7" ["data:image/png;base64,AAAA"]) [] emptyDB).toOption.map
      (fun p => p.2.writeLog) = some ["7_0"] ∧
    ¬ FollowsKeyScheme "7" "7_0" := by
  constructor
  · decide
  · intro hf
    rcases hf with hf | hf | ⟨i, hf⟩
    · exact absurd hf (by decide)
    · exact absurd hf (by decide)
    · have hlen := congrArg String.length hf
      rw [String.length_append, String.length_append] at hlen
      have e1 : "7_0".length = 3 := rfl
      have e2 : "7".length = 1 := rfl
      have e3 : "_result_".length = 8 := rfl
      rw [e1, e2, e3] at hlen
      omega

/-- C6 (amended): keys minted by the import path all follow the
`{recordId}_{role}[_index]` scheme (role in result/original/mask), and the
original/mask keys minted at creation follow `{recordId}_{role}`; but the
keys minted for a record's result images at creation are
`{recordId}_{index}`, with no role segment. -/
theorem c6_key_scheme_amended :
    (∀ (data : BackupData) (hist : List GenerationRecord) (st : DBState)
        (res : ImportResult) (st' : DBState),
        importBackup data hist st = (.ok res, st') →
        ∀ k ∈ st'.writeLog, k ∈ st.writeLog ∨
          ∃ e ∈ data.records, FollowsKeyScheme e.record.id k) ∧
    (∀ id : String, FollowsKeyScheme id (handleSubmitOriginalKey id) ∧
        FollowsKeyScheme id (handleSubmitMaskKey id)) ∧
    (∀ (r : GenerationRecord) (st : DBState) (ks : List String) (st' : DBState),
        saveResultImages r.id r.base64Images 0 st = .ok (ks, st') →
        ks = mintedKeys r.id r.base64Images.length) := by
  refine ⟨?_, ?_, saveResultImages_mintedKeys⟩
  · intro data hist st res st' h k hk
    simp only [importBackup] at h
    cases him : importEntries (hist.map (·.id)) data.records st with
    | mk r0 st0 =>
        rw [him] at h
        cases r0 with
        | error e => cases h
        | ok p =>
            obtain ⟨sk, recs⟩ := p
            cases h
            rcases (importEntries_spec _ data.records st sk recs _ him).2 k hk with
              hin | ⟨e, he, hne, hsch⟩
            · exact Or.inl hin
            · exact Or.inr ⟨e, he, hsch⟩
  · intro id
    exact ⟨Or.inl rfl, Or.inr (Or.inl rfl)⟩

theorem c6_key_scheme_amended_witness :
    FollowsKeyScheme "x" (handleSubmitOriginalKey "x") ∧
    (∀ k ∈ emptyDB.writeLog, k ∈ emptyDB.writeLog ∨
        ∃ e ∈ dataN.records, FollowsKeyScheme e.record.id k) :=
  ⟨(c6_key_scheme_amended.2.1 "x").1,
   c6_key_scheme_amended.1 dataN [] emptyDB ⟨1, 0, [mkRec "n" []]⟩ emptyDB rfl⟩

/-- C7: on a successful import, every backup record whose id already
exists in the current history is counted as skipped and triggers no Blob
Store write (every new write-log key was minted for an entry whose id is
not in the existing history), `importedCount + skippedCount` equals the
number of backup records, and `importedCount` is the length of
`newRecords`.  The existing history itself is only read, never modified. -/
theorem c7_import_skip_accounting (data : BackupData) (hist : List GenerationRecord)
    (st : DBState) (res : ImportResult) (st' : DBState)
    (h : importBackup data hist st = (.ok res, st')) :
    res.imported + res.skipped = data.records.length ∧
    res.imported = res.newRecords.length ∧
    ∀ k ∈ st'.writeLog, k ∈ st.writeLog ∨
      ∃ e ∈ data.records, (hist.map (·.id)).contains e.record.id = false ∧
        FollowsKeyScheme e.record.id k := by
  simp only [importBackup] at h
  cases him : importEntries (hist.map (·.id)) data.records st with
  | mk r0 st0 =>
      rw [him] at h
      cases r0 with
      | error e => cases h
      | ok p =>
          obtain ⟨sk, recs⟩ := p
          cases h
          obtain ⟨hcount, hwrites⟩ := importEntries_spec _ data.records st sk recs _ him
          refine ⟨?_, rfl, hwrites⟩
          show recs.length + sk = data.records.length
          omega

theorem c7_import_skip_accounting_witness :
    ((0 : Nat) + 1 = dataN.records.length) ∧
    ((0 : Nat) = ([] : List GenerationRecord).length) ∧
    (∀ k ∈ emptyDB.writeLog, k ∈ emptyDB.writeLog ∨
        ∃ e ∈ dataN.records, (([mkRec "n" []]).map (·.id)).contains e.record.id = false ∧
          FollowsKeyScheme e.record.id k) :=
  c7_import_skip_accounting dataN [mkRec "n" []] emptyDB ⟨0, 1, []⟩ emptyDB rfl

/-- C8 counterexample: with a record holding keys `"a_0"` and `"a_1"` and
the delete of `"a_0"` failing, the record is removed from the ledger but
the `"a_1"` entry is still present afterwards — the failure blocked the
deletion of the record's remaining entries. -/
theorem c8_failed_delete_blocks_rest :
    (deleteRecords failA ["a"] [recC8] stC8).1 = [] ∧
    ¬ ((deleteRecords failA ["a"] [recC8] stC8).2.store "a_1" = none) := by
  refine ⟨by decide, by decide⟩

/-- C8 (amended): a failure while deleting one entry is caught per record:
it never blocks the removal of the records from the ledger, but it aborts
that record's remaining deletes — the loop stops at the first failing key,
leaving the keys after it untouched. -/
theorem c8_best_effort_amended :
    (∀ (fail : String → Bool) (ids : List String) (hist : List GenerationRecord)
        (st : DBState),
        (deleteRecords fail ids hist st).1 =
          hist.filter (fun r => !ids.contains r.id)) ∧
    (∀ (fail : String → Bool) (ks1 : List String) (kf : String) (ks2 : List String)
        (st : DBState),
        (∀ k ∈ ks1, fail k = false) → fail kf = true →
        deleteRecordImages fail (ks1 ++ kf :: ks2) st =
          revokeCachedUrl kf (ks1.foldl (fun s k => deleteImage k s) st)) := by
  constructor
  · intro fail ids hist st
    rfl
  · intro fail ks1
    induction ks1 with
    | nil =>
        intro kf ks2 st hks hkf
        simp [deleteRecordImages, deleteImageF, hkf]
    | cons k ks ih =>
        intro kf ks2 st hks hkf
        have hk : fail k = false := hks k (List.mem_cons_self k ks)
        have hstep : deleteImageF fail k st = .ok (deleteImage k st) := by
          simp [deleteImageF, deleteImage, hk]
        simp only [List.cons_append, deleteRecordImages, hstep, List.foldl_cons]
        exact ih kf ks2 (deleteImage k st)
          (fun q hq => hks q (List.mem_cons_of_mem k hq)) hkf

theorem c8_best_effort_amended_witness :
    (deleteRecords failW ["a"] [recC8] stC8).1 =
      [recC8].filter (fun r => !(["a"].contains r.id)) ∧
    deleteRecordImages failW (["a_0"] ++ "f" :: ["a_1"]) stC8 =
      revokeCachedUrl "f" (["a_0"].foldl (fun s k => deleteImage k s) stC8) :=
  ⟨c8_best_effort_amended.1 failW ["a"] [recC8] stC8,
   c8_best_effort_amended.2 failW ["a_0"] "f" ["a_1"] stC8 (by decide) (by decide)⟩

/-- C9: import deduplicates only against the pre-existing history.  For a
backup holding two entries with the same id (not present in the existing
history), each with one decodable result image, both are imported (nothing
skipped), both new records reference the same derived key, and the store
finally holds the second entry's bytes under that key (the second write
overwrote the first). -/
theorem c9_intra_backup_duplicates (e1 e2 : BackupEntry) (i d1 d2 : String)
    (b1 b2 : Blob) (hist : List GenerationRecord) (st : DBState)
    (h1 : e1.record.id = i) (h2 : e2.record.id = i)
    (hni : (hist.map (·.id)).contains i = false)
    (hi1 : e1.images = ⟨[d1], none, none⟩) (hi2 : e2.images = ⟨[d2], none, none⟩)
    (hd1 : dataURLToBlob d1 = .ok b1) (hd2 : dataURLToBlob d2 = .ok b2) :
    (importBackup ⟨1, 0, [e1, e2]⟩ hist st).1 = .ok ⟨2, 0,
      [{ e1.record with base64Images := [i ++ "_result_0"], originalImage := none, maskImage := none },
       { e2.record with base64Images := [i ++ "_result_0"], originalImage := none, maskImage := none }]⟩ ∧
    (importBackup ⟨1, 0, [e1, e2]⟩ hist st).2.store (i ++ "_result_0") = some b2 := by
  have hkey : i ++ "_result_" ++ toString (0 : Nat) = i ++ "_result_0" := by
    rw [String.append_assoc]
    rfl
  have hrun : importBackup ⟨1, 0, [e1, e2]⟩ hist st =
      (.ok ⟨2, 0,
        [{ e1.record with base64Images := [i ++ "_result_0"], originalImage := none, maskImage := none },
         { e2.record with base64Images := [i ++ "_result_0"], originalImage := none, maskImage := none }]⟩,
       saveImage (i ++ "_result_0") b2 (saveImage (i ++ "_result_0") b1 st)) := by
    have hni' : ¬ ∃ a ∈ hist, a.id = i := by simpa using hni
    simp [importBackup, importEntries, importResultImages, importOptImage,
      h1, h2, hni', hi1, hi2, hd1, hd2, hkey]
  rw [hrun]
  refine ⟨rfl, ?_⟩
  rw [saveImage_store, upd_self]

theorem c9_intra_backup_duplicates_witness :
    (importBackup ⟨1, 0, [e1W, e2W]⟩ [] emptyDB).1 = .ok ⟨2, 0,
      [{ e1W.record with base64Images := ["x" ++ "_result_0"], originalImage := none, maskImage := none },
       { e2W.record with base64Images := ["x" ++ "_result_0"], originalImage := none, maskImage := none }]⟩ ∧
    (importBackup ⟨1, 0, [e1W, e2W]⟩ [] emptyDB).2.store ("x" ++ "_result_0") =
      some blobB :=
  c9_intra_backup_duplicates e1W e2W "x" "data:image/png;base64,AAAA"
    "data:image/png;base64,AAAB" blobA blobB [] emptyDB rfl rfl rfl rfl rfl
    (by decide) (by decide)

end DalleApp
